import Mathlib

/-!
Shallow embedding of the clipdeck campaign-service core
(src/services/campaignService.ts, src/services/waitlistService.ts,
src/events/handlers.ts).  The persistent store is modelled as lists of
rows; each service function is a pure function from the store to either
an error (the thrown error taxonomy of the service) or an updated store plus
its return value.  Timestamps (`new Date()`) are threaded as a `now : Nat`
parameter; event publication and logging have no effect on the store and
are omitted.
-/

namespace Campaigns

/-- Campaign lifecycle status. -/
inductive Status where
  | DRAFT
  | ACTIVE
  | ENDED
deriving DecidableEq, Repr

/-- Campaign admission mode. -/
inductive CampaignType where
  | AUTO_JOIN
  | WAITLIST
deriving DecidableEq, Repr

/-- Participant role. -/
inductive Role where
  | CREATOR
  | ADMIN
  | MEMBER
  | PENDING
deriving DecidableEq, Repr

/-- Waitlist response / application status. -/
inductive RespStatus where
  | PENDING
  | APPROVED
  | REJECTED
deriving DecidableEq, Repr

/-- The fixed platform enumeration. -/
inductive Platform where
  | TIKTOK
  | INSTAGRAM
  | YOUTUBE
  | TWITTER
deriving DecidableEq, Repr

/-- The thrown error taxonomy of the service (src/lib/errors): notFound,
badRequest (InvalidInput), forbidden, conflict.  `storage` stands for an
error raised by the storage layer itself (prisma update/create on a
missing row or a unique-key violation). -/
inductive Err where
  | notFound (msg : String)
  | badRequest (msg : String)
  | forbidden (msg : String)
  | conflict (msg : String)
  | storage (msg : String)
deriving DecidableEq, Repr

/-- The Campaign row, restricted to the fields the verified operations
read or write. -/
structure Campaign where
  id : String
  status : Status
  campaignType : CampaignType
  editorSlots : Nat
  totalBudget : Nat
  platformFee : Nat
  remainingBudget : Nat
  spentBudget : Nat
  isFunded : Bool
  approvedClips : Nat
  pendingClips : Nat
  rejectedClips : Nat
  totalViews : Nat
  enableLeaderboard : Bool
  endDate : Nat
  archivedAt : Option Nat
  createdBy : String
deriving DecidableEq, Repr

/-- CampaignParticipant row, unique on (campaignId, userId). -/
structure Participant where
  campaignId : String
  userId : String
  role : Role
deriving DecidableEq, Repr

/-- WaitlistResponse row, unique on (campaignId, userId). -/
structure WaitlistResponse where
  campaignId : String
  userId : String
  answers : List (String × String)
  status : RespStatus
  reviewedBy : Option String
  reviewedAt : Option Nat
  note : Option String
deriving DecidableEq, Repr

/-- WaitlistBan row, unique on (campaignId, userId). -/
structure WaitlistBan where
  campaignId : String
  userId : String
  reason : Option String
deriving DecidableEq, Repr

/-- WaitlistQuestion row. -/
structure WaitlistQuestion where
  campaignId : String
  question : String
  order : Nat
deriving DecidableEq, Repr

/-- CampaignApplication row: a table referenced by banParticipant; no
code in this service ever inserts into it. -/
structure CampaignApplication where
  campaignId : String
  userId : String
  status : RespStatus
  decidedAt : Option Nat
deriving DecidableEq, Repr

/-- CampaignPermissions row, unique on campaignId. -/
structure CampaignPermissions where
  campaignId : String
  adminsCanReviewClips : Bool
  adminsCanManageTeam : Bool
  adminsCanEditCampaign : Bool
  adminsCanAddBudget : Bool
  adminsCanDeleteCampaign : Bool
deriving DecidableEq, Repr

/-- The authenticated caller (src/middleware/auth AuthUser). -/
structure AuthUser where
  userId : String
  isStaff : Bool
deriving DecidableEq, Repr

/-- The persistent store: one list of rows per table. -/
structure DB where
  campaigns : List Campaign
  participants : List Participant
  responses : List WaitlistResponse
  bans : List WaitlistBan
  questions : List WaitlistQuestion
  applications : List CampaignApplication
  permissions : List CampaignPermissions
deriving DecidableEq, Repr

/-- Models prisma.campaign.findUnique on the id key. -/
def findCampaign (db : DB) (id : String) : Option Campaign :=
  db.campaigns.find? (fun c => c.id == id)

/-- Models prisma.campaignParticipant.findUnique on the (campaignId, userId) key. -/
def findParticipant (db : DB) (campaignId userId : String) : Option Participant :=
  db.participants.find? (fun p => p.campaignId == campaignId && p.userId == userId)

/-- Models prisma.waitlistBan.findUnique on the (campaignId, userId) key. -/
def findBan (db : DB) (campaignId userId : String) : Option WaitlistBan :=
  db.bans.find? (fun b => b.campaignId == campaignId && b.userId == userId)

/-- Models prisma.waitlistResponse.findUnique on the (campaignId, userId) key. -/
def findResponse (db : DB) (campaignId userId : String) : Option WaitlistResponse :=
  db.responses.find? (fun r => r.campaignId == campaignId && r.userId == userId)

/-- Models prisma.campaignPermissions.findUnique on the campaignId key,
which is also what the permissions relation loaded by getCampaign holds. -/
def findPermissions (db : DB) (campaignId : String) : Option CampaignPermissions :=
  db.permissions.find? (fun p => p.campaignId == campaignId)

/-- The participant relation count loaded with a campaign. -/
def participantCount (db : DB) (campaignId : String) : Nat :=
  (db.participants.filter (fun p => p.campaignId == campaignId)).length

/-- participantService.getParticipantRole. -/
def getParticipantRole (db : DB) (campaignId userId : String) : Option Role :=
  (findParticipant db campaignId userId).map (fun p => p.role)

/-! ## Platform mapping (campaignService.mapPlatforms) -/

/-- Is `n` a prefix of `h` (character lists)? -/
def isPrefixList : List Char → List Char → Bool
  | [], _ => true
  | _ :: _, [] => false
  | a :: as, b :: bs => a == b && isPrefixList as bs

/-- Is `n` a contiguous substring of `h` (character lists)? -/
def isSubstrList (n : List Char) : List Char → Bool
  | [] => n.isEmpty
  | b :: bs => isPrefixList n (b :: bs) || isSubstrList n bs

/-- JavaScript substring containment, as in hay.includes(needle). -/
def strIncludes (hay needle : String) : Bool :=
  isSubstrList needle.toList hay.toList

/-- JavaScript toLowerCase restricted to its ASCII action. -/
def strLower (s : String) : String :=
  String.mk (s.toList.map Char.toLower)

/-- The per-element body of campaignService.mapPlatforms: lowercase, then
test the four recognizers in order; `none` is the thrown-badRequest case. -/
def mapPlatform (p : String) : Option Platform :=
  let v := strLower p
  if strIncludes v "tiktok" || v == "tik tok" then some Platform.TIKTOK
  else if strIncludes v "instagram" || v == "insta" then some Platform.INSTAGRAM
  else if strIncludes v "youtube" || v == "yt" then some Platform.YOUTUBE
  else if strIncludes v "twitter" || v == "x" then some Platform.TWITTER
  else none

/-- campaignService.mapPlatforms: maps each string left to right, throwing
badRequest at the first unrecognized one (a JS Array.map callback
propagates the throw). -/
def mapPlatforms : List String → Except Err (List Platform)
  | [] => Except.ok []
  | p :: ps =>
    match mapPlatform p with
    | some x => (mapPlatforms ps).map (fun l => x :: l)
    | none => Except.error (Err.badRequest ("Invalid platform: " ++ p))

/-! ## participantService.joinCampaign -/

/-- participantService.joinCampaign.  Checks, in source order: campaign
exists; campaign ACTIVE; caller not already a participant; caller not
banned; for AUTO_JOIN, participant count below editorSlots.  Then inserts
the participant row (MEMBER for AUTO_JOIN, PENDING for WAITLIST) and, for
WAITLIST with answers supplied, a PENDING WaitlistResponse.  Returns the
assigned role. -/
def joinCampaign (campaignId : String) (user : AuthUser)
    (answers : Option (List (String × String))) (db : DB) :
    Except Err (DB × Role) :=
  match findCampaign db campaignId with
  | none => Except.error (Err.notFound ("Campaign " ++ campaignId ++ " not found"))
  | some campaign =>
    if campaign.status ≠ Status.ACTIVE then
      Except.error (Err.badRequest "Campaign is not active")
    else if (findParticipant db campaignId user.userId).isSome then
      Except.error (Err.conflict "Already a participant in this campaign")
    else if (findBan db campaignId user.userId).isSome then
      Except.error (Err.forbidden "You are banned from this campaign")
    else
      let isAutoJoin := campaign.campaignType = CampaignType.AUTO_JOIN
      let role := if isAutoJoin then Role.MEMBER else Role.PENDING
      if isAutoJoin ∧ participantCount db campaignId ≥ campaign.editorSlots then
        Except.error (Err.forbidden "Campaign is full")
      else
        let db1 := { db with participants :=
          db.participants ++ [Participant.mk campaignId user.userId role] }
        let db2 :=
          match answers with
          | some a =>
            if isAutoJoin then db1
            else { db1 with responses := db1.responses ++
              [WaitlistResponse.mk campaignId user.userId a RespStatus.PENDING none none none] }
          | none => db1
        Except.ok (db2, role)

/-! ## participantService.approveParticipant -/

/-- participantService.approveParticipant.  Checks: campaign exists;
requester is CREATOR, ADMIN, or staff; participant count below
editorSlots.  Then unconditionally sets the role of the target row to
MEMBER (a prisma update raises a storage error when the row is absent)
and marks every matching waitlist response APPROVED with audit fields
(an updateMany, zero matching rows allowed). -/
def approveParticipant (campaignId targetUserId : String) (user : AuthUser)
    (now : Nat) (db : DB) : Except Err (DB × Participant) :=
  match findCampaign db campaignId with
  | none => Except.error (Err.notFound ("Campaign " ++ campaignId ++ " not found"))
  | some campaign =>
    let requesterRole := getParticipantRole db campaignId user.userId
    if requesterRole ≠ some Role.CREATOR ∧ requesterRole ≠ some Role.ADMIN ∧
        ¬ user.isStaff then
      Except.error (Err.forbidden "You do not have permission to approve participants")
    else if participantCount db campaignId ≥ campaign.editorSlots then
      Except.error (Err.forbidden "Campaign is full")
    else
      match findParticipant db campaignId targetUserId with
      | none => Except.error (Err.storage "Record to update not found")
      | some p =>
        let db1 := { db with participants := db.participants.map (fun (q : Participant) =>
          if q.campaignId == campaignId && q.userId == targetUserId then
            { q with role := Role.MEMBER }
          else q) }
        let db2 := { db1 with responses := db1.responses.map (fun (r : WaitlistResponse) =>
          if r.campaignId == campaignId && r.userId == targetUserId then
            { r with
              status := RespStatus.APPROVED,
              reviewedBy := some user.userId, reviewedAt := some now }
          else r) }
        Except.ok (db2, { p with role := Role.MEMBER })

/-! ## participantService.banParticipant -/

/-- participantService.banParticipant.  Checks: requester is CREATOR,
ADMIN, or staff.  Then inserts a WaitlistBan row (a prisma create raises
a storage error when the unique (campaignId, userId) key already exists),
deletes any participant rows for the target (a deleteMany, zero rows
allowed), and sets matching PENDING CampaignApplication rows to REJECTED
(an updateMany on the campaignApplication table — not on
waitlistResponse). -/
def banParticipant (campaignId targetUserId : String) (user : AuthUser)
    (reason : Option String) (now : Nat) (db : DB) : Except Err DB :=
  let requesterRole := getParticipantRole db campaignId user.userId
  if requesterRole ≠ some Role.CREATOR ∧ requesterRole ≠ some Role.ADMIN ∧
      ¬ user.isStaff then
    Except.error (Err.forbidden "You do not have permission to ban participants")
  else if (findBan db campaignId targetUserId).isSome then
    Except.error (Err.storage "Unique constraint failed on waitlistBan")
  else
    let db1 := { db with bans := db.bans ++ [WaitlistBan.mk campaignId targetUserId reason] }
    let db2 := { db1 with participants := db1.participants.filter (fun (p : Participant) =>
      ! (p.campaignId == campaignId && p.userId == targetUserId)) }
    let db3 := { db2 with applications := db2.applications.map (fun (a : CampaignApplication) =>
      if a.campaignId == campaignId && a.userId == targetUserId &&
          a.status == RespStatus.PENDING then
        { a with status := RespStatus.REJECTED, decidedAt := some now }
      else a) }
    Except.ok db3

/-! ## campaignService.deleteCampaign -/

/-- campaignService.deleteCampaign.  Loads the campaign (notFound when
absent) and the participant row of the caller.  When the caller is
neither the CREATOR participant nor staff, the only remaining check is
the adminsCanDeleteCampaign override flag — the role of the caller is not
consulted.  On success the campaign row is removed. -/
def deleteCampaign (id : String) (user : AuthUser) (db : DB) : Except Err DB :=
  match findCampaign db id with
  | none => Except.error (Err.notFound ("Campaign " ++ id ++ " not found"))
  | some _ =>
    let isCreator := getParticipantRole db id user.userId = some Role.CREATOR
    if ¬ isCreator ∧ ¬ user.isStaff ∧
        ¬ ((findPermissions db id).map (fun p => p.adminsCanDeleteCampaign)
            |>.getD false) then
      Except.error (Err.forbidden "You do not have permission to delete this campaign")
    else
      Except.ok { db with campaigns := db.campaigns.filter (fun (c : Campaign) => ! (c.id == id)) }

/-! ## campaignService.closeCampaign -/

/-- campaignService.closeCampaign.  conflict when already ENDED; then the
caller must be the CREATOR participant or staff; sets status ENDED and
archivedAt. -/
def closeCampaign (id : String) (user : AuthUser) (now : Nat) (db : DB) :
    Except Err (DB × Campaign) :=
  match findCampaign db id with
  | none => Except.error (Err.notFound ("Campaign " ++ id ++ " not found"))
  | some campaign =>
    if campaign.status = Status.ENDED then
      Except.error (Err.conflict "Campaign is already ended")
    else if getParticipantRole db id user.userId ≠ some Role.CREATOR ∧
        ¬ user.isStaff then
      Except.error (Err.forbidden "Only the campaign creator can close a campaign")
    else
      let updated := { campaign with status := Status.ENDED, archivedAt := some now }
      let db1 := { db with campaigns := db.campaigns.map (fun (c : Campaign) =>
        if c.id == id then { c with status := Status.ENDED, archivedAt := some now }
        else c) }
      Except.ok (db1, updated)

/-! ## campaignService.updateCampaign -/

/-- A patch object for updateCampaign, restricted to the mutable fields
the verified claims exercise; `none` means the field is absent from the
patch.  The source accepts a free-form record and passes its fields to
the storage update verbatim. -/
structure CampaignPatch where
  status : Option Status := none
  editorSlots : Option Nat := none
  totalBudget : Option Nat := none
deriving DecidableEq, Repr

/-- Apply a patch verbatim, as the prisma campaign update does. -/
def applyPatch (patch : CampaignPatch) (c : Campaign) : Campaign :=
  { c with
    status := patch.status.getD c.status,
    editorSlots := patch.editorSlots.getD c.editorSlots,
    totalBudget := patch.totalBudget.getD c.totalBudget }

/-- campaignService.updateCampaign.  Loads the campaign (notFound when
absent); the caller must be the CREATOR or ADMIN participant or staff;
an ADMIN additionally needs the `adminsCanEditCampaign` override.  The
patch fields are then applied verbatim — including `status`, which is not
validated against the current status. -/
def updateCampaign (id : String) (patch : CampaignPatch) (user : AuthUser)
    (db : DB) : Except Err (DB × Campaign) :=
  match findCampaign db id with
  | none => Except.error (Err.notFound ("Campaign " ++ id ++ " not found"))
  | some campaign =>
    let role := getParticipantRole db id user.userId
    let isCreator := role = some Role.CREATOR
    let isAdmin := role = some Role.ADMIN
    if ¬ isCreator ∧ ¬ isAdmin ∧ ¬ user.isStaff then
      Except.error (Err.forbidden "You do not have permission to edit this campaign")
    else if isAdmin ∧
        ¬ ((findPermissions db id).map (fun p => p.adminsCanEditCampaign)
            |>.getD false) then
      Except.error (Err.forbidden "Admins do not have permission to edit this campaign")
    else
      let updated := applyPatch patch campaign
      let db1 := { db with campaigns := db.campaigns.map (fun (c : Campaign) =>
        if c.id == id then applyPatch patch c else c) }
      Except.ok (db1, updated)

/-! ## campaignService.fundCampaign -/

/-- The platform fee: the source computes Math.round(totalBudget * 0.1).
For a natural-number budget below 2^51 the double-precision product
`totalBudget * 0.1` rounds to a value strictly between the midpoints
surrounding totalBudget / 10 (and lands exactly on k + 1/2 whenever
totalBudget = 10k + 5), so Math.round — round half towards positive
infinity — yields exactly ⌊(totalBudget + 5) / 10⌋. -/
def platformFeeOf (totalBudget : Nat) : Nat :=
  (totalBudget + 5) / 10

/-- campaignService.fundCampaign.  The caller must be the recorded
creator (`createdBy`) or staff; conflict when already funded; otherwise
sets isFunded, platformFee = round-half-up 10% of totalBudget, and
remainingBudget = totalBudget − platformFee. -/
def fundCampaign (id : String) (user : AuthUser) (db : DB) :
    Except Err (DB × Campaign) :=
  match findCampaign db id with
  | none => Except.error (Err.notFound ("Campaign " ++ id ++ " not found"))
  | some campaign =>
    if campaign.createdBy ≠ user.userId ∧ ¬ user.isStaff then
      Except.error (Err.forbidden "Only the campaign creator can fund a campaign")
    else if campaign.isFunded then
      Except.error (Err.conflict "Campaign is already funded")
    else
      let fee := platformFeeOf campaign.totalBudget
      let updated := { campaign with
        isFunded := true, platformFee := fee,
        remainingBudget := campaign.totalBudget - fee }
      let db1 := { db with campaigns := db.campaigns.map (fun (c : Campaign) =>
        if c.id == id then
          { c with
            isFunded := true, platformFee := fee,
            remainingBudget := campaign.totalBudget - fee }
        else c) }
      Except.ok (db1, updated)

/-! ## campaignService.autoCloseCampaigns -/

/-- Mark one campaign row ended with the sweep timestamp. -/
def endCampaign (now : Nat) (c : Campaign) : Campaign :=
  { c with status := Status.ENDED, archivedAt := some now }

/-- One iteration of the autoClose loop body: the storage update of an
expired campaign either throws (`failing c.id = true`, caught and logged,
leaving the store and the count untouched) or sets the campaign ENDED and
increments the count. -/
def autoCloseStep (now : Nat) (failing : String → Bool)
    (acc : DB × Nat) (c : Campaign) : DB × Nat :=
  if failing c.id then acc
  else
    ({ acc.1 with campaigns := acc.1.campaigns.map (fun (x : Campaign) =>
        if x.id == c.id then endCampaign now x else x) },
     acc.2 + 1)

/-- campaignService.autoCloseCampaigns.  Selects every ACTIVE campaign
whose endDate lies before `now`, then iterates: each per-campaign failure
(modelled by the `failing` oracle) is caught and skipped; each success
sets the campaign ENDED and counts it.  Returns the final store and the
number of campaigns closed. -/
def autoCloseCampaigns (now : Nat) (failing : String → Bool) (db : DB) :
    DB × Nat :=
  let expired := db.campaigns.filter (fun c =>
    c.status == Status.ACTIVE && decide (c.endDate < now))
  expired.foldl (autoCloseStep now failing) (db, 0)

/-! ## Event handlers (src/events/handlers.ts) -/

/-- The clip.approved handler: increment approvedClips of the named
campaign by one (a prisma update raises a storage error when the
campaign is absent); the other counters are not touched. -/
def handleClipApproved (campaignId : String) (db : DB) : Except Err DB :=
  match findCampaign db campaignId with
  | none => Except.error (Err.storage "Record to update not found")
  | some _ => Except.ok { db with campaigns := db.campaigns.map (fun (c : Campaign) =>
      if c.id == campaignId then { c with approvedClips := c.approvedClips + 1 }
      else c) }

/-- The clip.rejected handler: increment rejectedClips by one. -/
def handleClipRejected (campaignId : String) (db : DB) : Except Err DB :=
  match findCampaign db campaignId with
  | none => Except.error (Err.storage "Record to update not found")
  | some _ => Except.ok { db with campaigns := db.campaigns.map (fun (c : Campaign) =>
      if c.id == campaignId then { c with rejectedClips := c.rejectedClips + 1 }
      else c) }

/-- The clip.submitted handler: increment pendingClips by one. -/
def handleClipSubmitted (campaignId : String) (db : DB) : Except Err DB :=
  match findCampaign db campaignId with
  | none => Except.error (Err.storage "Record to update not found")
  | some _ => Except.ok { db with campaigns := db.campaigns.map (fun (c : Campaign) =>
      if c.id == campaignId then { c with pendingClips := c.pendingClips + 1 }
      else c) }

/-! ## waitlistService: questions -/

/-- The rows created by setWaitlistQuestions from the input list, with
the 0-based loop index threaded: the order of each question is its
explicit order field when given, else its 1-based position in the
input. -/
def assignQuestions (campaignId : String) :
    Nat → List (String × Option Nat) → List WaitlistQuestion
  | _, [] => []
  | i, q :: qs =>
    WaitlistQuestion.mk campaignId q.1 (q.2.getD (i + 1)) ::
      assignQuestions campaignId (i + 1) qs

/-- waitlistService.setWaitlistQuestions.  The caller must be the CREATOR
participant or staff; deletes every existing question row of the
campaign, then inserts the freshly assigned rows; returns the created
rows in input order. -/
def setWaitlistQuestions (campaignId : String)
    (questions : List (String × Option Nat)) (user : AuthUser) (db : DB) :
    Except Err (DB × List WaitlistQuestion) :=
  if getParticipantRole db campaignId user.userId ≠ some Role.CREATOR ∧
      ¬ user.isStaff then
    Except.error (Err.forbidden "Only the creator can manage waitlist questions")
  else
    let created := assignQuestions campaignId 0 questions
    let db1 := { db with questions :=
      db.questions.filter (fun (q : WaitlistQuestion) => ! (q.campaignId == campaignId)) ++ created }
    Except.ok (db1, created)

/-- waitlistService.getWaitlistQuestions: the question rows of the
campaign ordered by the order field ascending (a stable sort models the
storage read). -/
def getWaitlistQuestions (campaignId : String) (db : DB) :
    List WaitlistQuestion :=
  (db.questions.filter (fun q => q.campaignId == campaignId)).insertionSort
    (fun a b => a.order ≤ b.order)

/-! ## Join sequences -/

/-- A sequence of independent join requests by the listed users (no
answers, non-staff), issued one after the other: a failed request leaves
the store untouched and the next request proceeds on the same store.
Returns the final store and the per-request outcomes in order. -/
def joinMany (campaignId : String) : List String → DB → DB × List (Except Err Role)
  | [], db => (db, [])
  | u :: us, db =>
    match joinCampaign campaignId ⟨u, false⟩ none db with
    | Except.ok (db1, r) =>
      let rest := joinMany campaignId us db1
      (rest.1, Except.ok r :: rest.2)
    | Except.error e =>
      let rest := joinMany campaignId us db
      (rest.1, Except.error e :: rest.2)

/-! ## Concrete stores for witnesses and counterexamples -/

/-- A campaign row with all counters zeroed, the given identity, status,
type, capacity, budget, end date and creator. -/
def mkCampaign (id : String) (st : Status) (ty : CampaignType)
    (slots budget endD : Nat) (creator : String) : Campaign :=
  { id := id, status := st, campaignType := ty, editorSlots := slots,
    totalBudget := budget, platformFee := 0, remainingBudget := 0,
    spentBudget := 0, isFunded := false, approvedClips := 0,
    pendingClips := 0, rejectedClips := 0, totalViews := 0,
    enableLeaderboard := false, endDate := endD, archivedAt := none,
    createdBy := creator }

/-- The empty store. -/
def emptyDB : DB := ⟨[], [], [], [], [], [], []⟩

/-- Decidable equality for Except values, used to settle closed
evaluations by decide. -/
instance {e a : Type} [DecidableEq e] [DecidableEq a] :
    DecidableEq (Except e a) := fun x y =>
  match x, y with
  | Except.ok u, Except.ok v =>
    if h : u = v then isTrue (by rw [h])
    else isFalse (by intro hc; cases hc; exact h rfl)
  | Except.ok _, Except.error _ => isFalse (by intro hc; cases hc)
  | Except.error _, Except.ok _ => isFalse (by intro hc; cases hc)
  | Except.error u, Except.error v =>
    if h : u = v then isTrue (by rw [h])
    else isFalse (by intro hc; cases hc; exact h rfl)

/-! ## Concrete stores used by the closed theorems below -/

/-- Store for the ban scenario: one ACTIVE WAITLIST campaign with its
creator as sole participant. -/
def banScenarioDB : DB := { emptyDB with
  campaigns := [mkCampaign "c1" Status.ACTIVE CampaignType.WAITLIST 5 1000 100 "cr"],
  participants := [Participant.mk "c1" "cr" Role.CREATOR] }

/-- Store for the delete scenario: one campaign whose permissions record
sets adminsCanDeleteCampaign, with the creator as sole participant. -/
def deleteScenarioDB : DB := { emptyDB with
  campaigns := [mkCampaign "c1" Status.ACTIVE CampaignType.AUTO_JOIN 5 1000 100 "cr"],
  participants := [Participant.mk "c1" "cr" Role.CREATOR],
  permissions := [CampaignPermissions.mk "c1" true true false false true] }

/-- Store for the capacity counterexample: an ACTIVE AUTO_JOIN campaign
with editorSlots = 1 whose creator is already a participant. -/
def capacityScenarioDB : DB := { emptyDB with
  campaigns := [mkCampaign "c1" Status.ACTIVE CampaignType.AUTO_JOIN 1 0 100 "cr"],
  participants := [Participant.mk "c1" "cr" Role.CREATOR] }

/-- Store for the status counterexample: an ENDED campaign with its
creator as participant. -/
def endedScenarioDB : DB := { emptyDB with
  campaigns := [mkCampaign "c1" Status.ENDED CampaignType.AUTO_JOIN 5 1000 100 "cr"],
  participants := [Participant.mk "c1" "cr" Role.CREATOR] }

/-! ## Theorems -/

/-- C1, counterexample.  An AUTO_JOIN campaign created with
editorSlots = 1 (so N = 1): the claim predicts the first join by a
distinct, unbanned, non-participant user succeeds, but the creator row
already counts against capacity, so the very first join fails Forbidden
with the full message. -/
theorem c1_counterexample :
    (findCampaign capacityScenarioDB "c1").map (fun c => c.editorSlots) = some 1 ∧
    participantCount capacityScenarioDB "c1" = 1 ∧
    findParticipant capacityScenarioDB "c1" "u1" = none ∧
    findBan capacityScenarioDB "c1" "u1" = none ∧
    joinCampaign "c1" ⟨"u1", false⟩ none capacityScenarioDB =
      Except.error (Err.forbidden "Campaign is full") ∧
    (joinMany "c1" ["u1"] capacityScenarioDB).2 ≠ [Except.ok Role.MEMBER] := by
  decide

/-- C2, code evaluated at the failing input.  On a WAITLIST campaign the
user alice joins with answers, creating a PENDING WaitlistResponse; the
creator then bans alice.  The composite succeeds without throwing and
the participant row is gone, but the WaitlistResponse is still PENDING:
banParticipant rewrites the campaignApplication table (which nothing in
this service populates), not the waitlistResponse table, so the pending
application of the banned user is never set to REJECTED. -/
theorem c2_ban_leaves_response_pending :
    ((joinCampaign "c1" ⟨"alice", false⟩ (some [("q1", "a1")]) banScenarioDB).bind
        (fun p => banParticipant "c1" "alice" ⟨"cr", false⟩ none 7 p.1)).map
      (fun db2 => ((findResponse db2 "c1" "alice").map (fun r => r.status),
                   findParticipant db2 "c1" "alice",
                   (findBan db2 "c1" "alice").isSome))
      = Except.ok (some RespStatus.PENDING, none, true) := by
  decide

/-- C3, code evaluated at the failing input.  The user mallory is not a
participant of the campaign at all (so neither its CREATOR nor an ADMIN)
and is not staff, yet deleteCampaign succeeds because the only check for
a non-creator non-staff caller is the adminsCanDeleteCampaign flag: the
flag grants delete access to every authenticated user, not only to
ADMINs as the claim states. -/
theorem c3_delete_grants_non_admin :
    getParticipantRole deleteScenarioDB "c1" "mallory" = none ∧
    (findPermissions deleteScenarioDB "c1").map
      (fun p => p.adminsCanDeleteCampaign) = some true ∧
    deleteCampaign "c1" ⟨"mallory", false⟩ deleteScenarioDB =
      Except.ok { deleteScenarioDB with campaigns := [] } := by
  decide

/-- C4, counterexample.  updateCampaign applies a status field from the
patch verbatim: the creator of an ENDED campaign patches it back to
ACTIVE, a reverse transition the claim says never happens. -/
theorem c4_counterexample :
    (findCampaign endedScenarioDB "c1").map (fun c => c.status) =
      some Status.ENDED ∧
    (updateCampaign "c1" { status := some Status.ACTIVE } ⟨"cr", false⟩
        endedScenarioDB).map (fun p => p.2.status) =
      Except.ok Status.ACTIVE := by
  decide

/-! ## Helper lemmas -/

/-- Looking a campaign up after an id-preserving per-row rewrite of the
campaigns table finds the rewritten row. -/
lemma findCampaign_map (db : DB) (id : String) (f : Campaign → Campaign)
    (hf : ∀ c, (f c).id = c.id) :
    findCampaign { db with campaigns := db.campaigns.map f } id =
      (findCampaign db id).map f := by
  simp only [findCampaign]
  rw [List.find?_map]
  have hp : ((fun (c : Campaign) => c.id == id) ∘ f) =
      (fun (c : Campaign) => c.id == id) := by
    funext c
    simp [Function.comp, hf]
  rw [hp]

/-- A found campaign matches the id predicate. -/
lemma findCampaign_id_beq {db : DB} {id : String} {camp : Campaign}
    (h : findCampaign db id = some camp) : (camp.id == id) = true := by
  have h1 : List.find? (fun (c : Campaign) => c.id == id) db.campaigns = some camp := by
    simpa [findCampaign] using h
  simpa using List.find?_some h1

/-- Store for the funding scenario: one campaign with totalBudget 1005
(so the 10% fee 100.5 rounds half up to 101) owned by cr. -/
def fundScenarioDB : DB := { emptyDB with
  campaigns := [mkCampaign "c1" Status.ACTIVE CampaignType.AUTO_JOIN 5 1005 100 "cr"] }

/-- C5.  Funding twice by the creator (or staff): the first call
succeeds, the platform fee is the round-half-up nearest integer to 10%
of totalBudget (the two inequalities pin fee as the unique integer in
the half-open interval (totalBudget/10 − 1/2, totalBudget/10 + 1/2]),
remainingBudget = totalBudget − fee, and the campaign is flagged funded;
the second call fails Conflict before writing anything, leaving the
campaign as the first call stored it. -/
theorem c5_fund_twice (id : String) (u : AuthUser) (db : DB) (camp : Campaign)
    (hfind : findCampaign db id = some camp)
    (hauth : camp.createdBy = u.userId ∨ u.isStaff = true)
    (hnew : camp.isFunded = false) :
    ∃ db1 c1, fundCampaign id u db = Except.ok (db1, c1) ∧
      c1.platformFee = platformFeeOf camp.totalBudget ∧
      10 * c1.platformFee ≤ camp.totalBudget + 5 ∧
      camp.totalBudget < 10 * c1.platformFee + 5 ∧
      c1.remainingBudget = camp.totalBudget - c1.platformFee ∧
      c1.isFunded = true ∧
      c1.totalBudget = camp.totalBudget ∧
      findCampaign db1 id = some c1 ∧
      fundCampaign id u db1 =
        Except.error (Err.conflict "Campaign is already funded") := by
  have hcond : ¬ (camp.createdBy ≠ u.userId ∧ ¬ u.isStaff = true) := by
    rcases hauth with h | h
    · exact fun hc => hc.1 h
    · exact fun hc => hc.2 h
  have hdiv := Nat.div_add_mod (camp.totalBudget + 5) 10
  have hmod : (camp.totalBudget + 5) % 10 < 10 :=
    Nat.mod_lt _ (by norm_num)
  have hid : ∀ c : Campaign,
      ((if c.id == id then
          { c with isFunded := true, platformFee := platformFeeOf camp.totalBudget,
                   remainingBudget := camp.totalBudget - platformFeeOf camp.totalBudget }
        else c) : Campaign).id = c.id := by
    intro c
    by_cases hc : (c.id == id) = true <;> simp [hc]
  have hmain : fundCampaign id u db = Except.ok
      ({ db with campaigns := db.campaigns.map (fun c =>
          if c.id == id then
            { c with isFunded := true, platformFee := platformFeeOf camp.totalBudget,
                     remainingBudget := camp.totalBudget - platformFeeOf camp.totalBudget }
          else c) },
       { camp with isFunded := true, platformFee := platformFeeOf camp.totalBudget,
                   remainingBudget := camp.totalBudget - platformFeeOf camp.totalBudget }) := by
    simp only [fundCampaign, hfind]
    rw [if_neg hcond, if_neg (by simp [hnew])]
  have hfind1 : findCampaign
      { db with campaigns := db.campaigns.map (fun c =>
          if c.id == id then
            { c with isFunded := true, platformFee := platformFeeOf camp.totalBudget,
                     remainingBudget := camp.totalBudget - platformFeeOf camp.totalBudget }
          else c) } id = some
      { camp with isFunded := true, platformFee := platformFeeOf camp.totalBudget,
                  remainingBudget := camp.totalBudget - platformFeeOf camp.totalBudget } := by
    rw [findCampaign_map db id _ hid, hfind]
    have hq : (camp.id == id) = true := findCampaign_id_beq hfind
    simp only [Option.map_some', hq, if_true]
  refine ⟨_, _, hmain, rfl, ?_, ?_, rfl, rfl, rfl, hfind1, ?_⟩
  · simp only [platformFeeOf]; omega
  · simp only [platformFeeOf]; omega
  · simp only [fundCampaign, hfind1]
    rw [if_neg (by simpa using hcond)]
    simp

/-- C5, witness: the concrete funding scenario, budget 1005, fee 101,
remainder 904; second call Conflict. -/
theorem c5_fund_twice_witness :
    ∃ db1 c1, fundCampaign "c1" ⟨"cr", false⟩ fundScenarioDB = Except.ok (db1, c1) ∧
      c1.platformFee = 101 ∧ c1.remainingBudget = 904 ∧ c1.isFunded = true ∧
      fundCampaign "c1" ⟨"cr", false⟩ db1 =
        Except.error (Err.conflict "Campaign is already funded") := by
  obtain ⟨db1, c1, h1, hfee, _, _, hrem, hfun, _, _, h2⟩ :=
    c5_fund_twice "c1" ⟨"cr", false⟩ fundScenarioDB
      (mkCampaign "c1" Status.ACTIVE CampaignType.AUTO_JOIN 5 1005 100 "cr")
      (by decide) (Or.inl rfl) rfl
  have hfee101 : c1.platformFee = 101 := by
    rw [hfee]; decide
  refine ⟨db1, c1, h1, hfee101, ?_, hfun, h2⟩
  rw [hrem, hfee101]
  decide

/-- Rewriting the row of one campaign id with an id-preserving update
makes lookup of that id return the updated found row. -/
lemma findCampaign_update (db : DB) (cid : String) (camp : Campaign)
    (upd : Campaign → Campaign)
    (h : findCampaign db cid = some camp) (hupd : ∀ c, (upd c).id = c.id) :
    findCampaign { db with campaigns := db.campaigns.map (fun c =>
      if c.id == cid then upd c else c) } cid = some (upd camp) := by
  rw [findCampaign_map db cid _
    (fun c => by by_cases hc : (c.id == cid) = true <;> simp [hc, hupd]), h]
  have hq : (camp.id == cid) = true := findCampaign_id_beq h
  simp only [Option.map_some', hq, if_true]

/-- Rewriting the row of one campaign id leaves every row with a
different id untouched, position by position. -/
lemma getElem_update_other (db : DB) (cid : String) (upd : Campaign → Campaign)
    (i : Nat) (c : Campaign)
    (hc : db.campaigns[i]? = some c) (hne : c.id ≠ cid) :
    ({ db with campaigns := db.campaigns.map (fun x =>
        if x.id == cid then upd x else x) } : DB).campaigns[i]? = some c := by
  show (db.campaigns.map (fun x => if x.id == cid then upd x else x))[i]? = some c
  rw [List.getElem?_map, hc, Option.map_some']
  simp [hne]

/-- Rewrite the rows of one campaign id with an update, as the storage
update-where-id of the handlers does. -/
def bump (cid : String) (f : Campaign → Campaign) (db : DB) : DB :=
  { db with campaigns := db.campaigns.map (fun c =>
      if c.id == cid then f c else c) }

/-- findCampaign after a bump of the same id returns the updated row. -/
lemma findCampaign_bump (db : DB) (cid : String) (camp : Campaign)
    (f : Campaign → Campaign)
    (h : findCampaign db cid = some camp) (hf : ∀ c, (f c).id = c.id) :
    findCampaign (bump cid f db) cid = some (f camp) :=
  findCampaign_update db cid camp f h hf

/-- A bump leaves rows of other ids untouched, position by position. -/
lemma getElem_bump_other (db : DB) (cid : String) (f : Campaign → Campaign)
    (i : Nat) (c : Campaign)
    (hc : db.campaigns[i]? = some c) (hne : c.id ≠ cid) :
    (bump cid f db).campaigns[i]? = some c :=
  getElem_update_other db cid f i c hc hne

/-- Store for the handler scenario: two campaigns with zeroed counters. -/
def handlerScenarioDB : DB := { emptyDB with
  campaigns := [mkCampaign "c1" Status.ACTIVE CampaignType.AUTO_JOIN 5 0 100 "cr",
                mkCampaign "c2" Status.ACTIVE CampaignType.AUTO_JOIN 5 0 100 "cr"] }

/-- C9.  Each delivery of clip.submitted / clip.approved / clip.rejected
increments exactly the matching counter of the named campaign by one
(the updated row keeps every other field of the old row, so the other
two counters are unchanged), rows of other campaigns are untouched
position by position, and the handlers are not idempotent: delivering
clip.approved twice yields approvedClips + 2. -/
theorem c9_clip_counter_handlers (db : DB) (cid : String) (camp : Campaign)
    (h : findCampaign db cid = some camp) :
    (∃ dbS, handleClipSubmitted cid db = Except.ok dbS ∧
       findCampaign dbS cid = some { camp with pendingClips := camp.pendingClips + 1 } ∧
       (∀ (i : Nat) (c : Campaign), db.campaigns[i]? = some c → c.id ≠ cid →
         dbS.campaigns[i]? = some c)) ∧
    (∃ dbR, handleClipRejected cid db = Except.ok dbR ∧
       findCampaign dbR cid = some { camp with rejectedClips := camp.rejectedClips + 1 } ∧
       (∀ (i : Nat) (c : Campaign), db.campaigns[i]? = some c → c.id ≠ cid →
         dbR.campaigns[i]? = some c)) ∧
    (∃ dbA, handleClipApproved cid db = Except.ok dbA ∧
       findCampaign dbA cid = some { camp with approvedClips := camp.approvedClips + 1 } ∧
       (∀ (i : Nat) (c : Campaign), db.campaigns[i]? = some c → c.id ≠ cid →
         dbA.campaigns[i]? = some c) ∧
       ∃ dbA2, handleClipApproved cid dbA = Except.ok dbA2 ∧
         findCampaign dbA2 cid =
           some { camp with approvedClips := camp.approvedClips + 2 }) := by
  have hsub : handleClipSubmitted cid db = Except.ok
      (bump cid (fun c => { c with pendingClips := c.pendingClips + 1 }) db) := by
    simp only [handleClipSubmitted, h, bump]
  have hrej : handleClipRejected cid db = Except.ok
      (bump cid (fun c => { c with rejectedClips := c.rejectedClips + 1 }) db) := by
    simp only [handleClipRejected, h, bump]
  have happ : handleClipApproved cid db = Except.ok
      (bump cid (fun c => { c with approvedClips := c.approvedClips + 1 }) db) := by
    simp only [handleClipApproved, h, bump]
  have happFind : findCampaign
      (bump cid (fun c => { c with approvedClips := c.approvedClips + 1 }) db) cid =
      some { camp with approvedClips := camp.approvedClips + 1 } :=
    findCampaign_bump db cid camp _ h (fun c => rfl)
  have happ2 : handleClipApproved cid
      (bump cid (fun c => { c with approvedClips := c.approvedClips + 1 }) db) =
      Except.ok (bump cid (fun c => { c with approvedClips := c.approvedClips + 1 })
        (bump cid (fun c => { c with approvedClips := c.approvedClips + 1 }) db)) := by
    simp only [handleClipApproved]
    rw [happFind]
    rfl
  have happ2Find : findCampaign
      (bump cid (fun c => { c with approvedClips := c.approvedClips + 1 })
        (bump cid (fun c => { c with approvedClips := c.approvedClips + 1 }) db)) cid =
      some { camp with approvedClips := camp.approvedClips + 2 } :=
    findCampaign_bump _ cid { camp with approvedClips := camp.approvedClips + 1 }
      _ happFind (fun c => rfl)
  exact ⟨⟨_, hsub, findCampaign_bump db cid camp _ h (fun c => rfl),
          fun i c hc hne => getElem_bump_other db cid _ i c hc hne⟩,
        ⟨_, hrej, findCampaign_bump db cid camp _ h (fun c => rfl),
          fun i c hc hne => getElem_bump_other db cid _ i c hc hne⟩,
        ⟨_, happ, happFind,
          fun i c hc hne => getElem_bump_other db cid _ i c hc hne,
          _, happ2, happ2Find⟩⟩

/-- C9, witness: two consecutive clip.approved deliveries on a fresh
campaign leave approvedClips = 2. -/
theorem c9_clip_counter_handlers_witness :
    ∃ dbA dbA2, handleClipApproved "c1" handlerScenarioDB = Except.ok dbA ∧
      handleClipApproved "c1" dbA = Except.ok dbA2 ∧
      (findCampaign dbA2 "c1").map (fun c =>
        (c.approvedClips, c.pendingClips, c.rejectedClips)) = some (2, 0, 0) := by
  obtain ⟨-, -, ⟨dbA, h1, h2, h3, dbA2, h4, h5⟩⟩ :=
    c9_clip_counter_handlers handlerScenarioDB "c1"
      (mkCampaign "c1" Status.ACTIVE CampaignType.AUTO_JOIN 5 0 100 "cr")
      (by decide)
  refine ⟨dbA, dbA2, h1, h4, ?_⟩
  rw [h5]
  decide

/-- When every string is recognized, mapPlatforms returns the pointwise
mapping. -/
lemma mapPlatforms_ok_of (ps : List String)
    (h : ∀ p ∈ ps, (mapPlatform p).isSome = true) :
    mapPlatforms ps =
      Except.ok (ps.map (fun p => (mapPlatform p).getD Platform.TIKTOK)) := by
  induction ps with
  | nil => simp [mapPlatforms]
  | cons p ps ih =>
    have hp : (mapPlatform p).isSome = true := h p (List.mem_cons_self p ps)
    obtain ⟨x, hx⟩ := Option.isSome_iff_exists.mp hp
    have ih1 := ih (fun q hq => h q (List.mem_cons_of_mem p hq))
    simp [mapPlatforms, hx, ih1, Except.map]

/-- When mapPlatforms succeeds, every string was recognized and the
output is the pointwise mapping. -/
lemma mapPlatforms_ok_then (ps : List String) (l : List Platform)
    (h : mapPlatforms ps = Except.ok l) :
    (∀ p ∈ ps, (mapPlatform p).isSome = true) ∧
      l = ps.map (fun p => (mapPlatform p).getD Platform.TIKTOK) := by
  induction ps generalizing l with
  | nil =>
    simp only [mapPlatforms] at h
    cases h
    simp
  | cons p ps ih =>
    cases hp : mapPlatform p with
    | none => simp [mapPlatforms, hp] at h
    | some x =>
      simp only [mapPlatforms, hp] at h
      cases he : mapPlatforms ps with
      | error e => rw [he] at h; simp [Except.map] at h
      | ok l2 =>
        rw [he] at h
        simp only [Except.map] at h
        cases h
        obtain ⟨h1, h2⟩ := ih l2 he
        refine ⟨?_, ?_⟩
        · intro q hq
          rcases List.mem_cons.mp hq with hq1 | hq2
          · rw [hq1, hp]; rfl
          · exact h1 q hq2
        · simp [hp, ← h2]

/-- When some string is unrecognized, mapPlatforms fails with the
badRequest error of the first such string. -/
lemma mapPlatforms_err_of (ps : List String)
    (h : ¬ ∀ p ∈ ps, (mapPlatform p).isSome = true) :
    ∃ p, p ∈ ps ∧ mapPlatform p = none ∧
      mapPlatforms ps =
        Except.error (Err.badRequest ("Invalid platform: " ++ p)) := by
  induction ps with
  | nil => simp at h
  | cons p ps ih =>
    cases hp : mapPlatform p with
    | none =>
      exact ⟨p, List.mem_cons_self p ps, hp, by simp [mapPlatforms, hp]⟩
    | some x =>
      have h2 : ¬ ∀ q ∈ ps, (mapPlatform q).isSome = true := by
        intro hall
        apply h
        intro q hq
        rcases List.mem_cons.mp hq with hq1 | hq2
        · rw [hq1, hp]; rfl
        · exact hall q hq2
      obtain ⟨q, hq, hqn, hqe⟩ := ih h2
      exact ⟨q, List.mem_cons_of_mem p hq, hqn,
        by simp [mapPlatforms, hp, hqe, Except.map]⟩

/-- C6.  create validates platform strings through mapPlatforms: the call
succeeds exactly when every string is recognized by the per-element
mapper (case-insensitively and alias-tolerantly — witnessed by the
concrete aliases below), each input string yields one member of the
four-element Platform enumeration, and an unrecognized string makes the
whole call fail with the badRequest (InvalidInput) error naming the
first such string. -/
theorem c6_map_platforms (ps : List String) :
    ((∃ l, mapPlatforms ps = Except.ok l) ↔
      ∀ p ∈ ps, (mapPlatform p).isSome = true) ∧
    (∀ l, mapPlatforms ps = Except.ok l → l.length = ps.length) ∧
    (∀ l, mapPlatforms ps = Except.ok l → ∀ x ∈ l,
      x = Platform.TIKTOK ∨ x = Platform.INSTAGRAM ∨
      x = Platform.YOUTUBE ∨ x = Platform.TWITTER) ∧
    ((¬ ∀ p ∈ ps, (mapPlatform p).isSome = true) →
      ∃ p, p ∈ ps ∧ mapPlatform p = none ∧
        mapPlatforms ps =
          Except.error (Err.badRequest ("Invalid platform: " ++ p))) ∧
    mapPlatform "yt" = some Platform.YOUTUBE ∧
    mapPlatform "x" = some Platform.TWITTER ∧
    mapPlatform "YouTube" = some Platform.YOUTUBE ∧
    mapPlatform "TIKTOK" = some Platform.TIKTOK ∧
    mapPlatform "tik tok" = some Platform.TIKTOK ∧
    mapPlatform "Insta" = some Platform.INSTAGRAM ∧
    mapPlatform "twitter.com" = some Platform.TWITTER ∧
    mapPlatform "facebook" = none := by
  refine ⟨⟨?_, ?_⟩, ?_, ?_, mapPlatforms_err_of ps,
    by decide, by decide, by decide, by decide, by decide, by decide,
    by decide, by decide⟩
  · rintro ⟨l, hl⟩
    exact (mapPlatforms_ok_then ps l hl).1
  · intro hall
    exact ⟨_, mapPlatforms_ok_of ps hall⟩
  · intro l hl
    rw [(mapPlatforms_ok_then ps l hl).2]
    simp
  · intro l hl x hx
    cases x
    · exact Or.inl rfl
    · exact Or.inr (Or.inl rfl)
    · exact Or.inr (Or.inr (Or.inl rfl))
    · exact Or.inr (Or.inr (Or.inr rfl))

/-- C6, witness: a list of alias spellings is accepted. -/
theorem c6_map_platforms_witness :
    ∃ l, mapPlatforms ["yt", "X", "tik tok", "Instagram"] = Except.ok l :=
  (c6_map_platforms ["yt", "X", "tik tok", "Instagram"]).1.mpr (by decide)

/-- find? on the participant key commutes with a key-preserving row
rewrite. -/
lemma find?_map_participant (l : List Participant) (cid uid : String)
    (f : Participant → Participant)
    (hf : ∀ q, (f q).campaignId = q.campaignId ∧ (f q).userId = q.userId) :
    (l.map f).find? (fun q => q.campaignId == cid && q.userId == uid) =
      (l.find? (fun q => q.campaignId == cid && q.userId == uid)).map f := by
  rw [List.find?_map]
  have hp : ((fun (q : Participant) => q.campaignId == cid && q.userId == uid) ∘ f) =
      (fun (q : Participant) => q.campaignId == cid && q.userId == uid) := by
    funext q
    simp [Function.comp, (hf q).1, (hf q).2]
  rw [hp]

/-- Store for the approval scenario: a WAITLIST campaign whose
participants are the creator and the ADMIN bob; no waitlist responses. -/
def approveScenarioDB : DB := { emptyDB with
  campaigns := [mkCampaign "c1" Status.ACTIVE CampaignType.WAITLIST 5 0 100 "cr"],
  participants := [Participant.mk "c1" "cr" Role.CREATOR,
                   Participant.mk "c1" "bob" Role.ADMIN] }

/-- C10.  approveParticipant never checks that the target currently has
role PENDING: for an existing participant row of any role, an authorized
call with free capacity succeeds and sets the role to MEMBER (so an
ADMIN target is demoted and a MEMBER target is a role no-op), and when
the target has no waitlist response the response update matches zero
rows and the call still succeeds, leaving the responses table
untouched. -/
theorem c10_approve_ignores_prior_role (db : DB) (cid target : String)
    (u : AuthUser) (now : Nat) (camp : Campaign) (p : Participant)
    (hc : findCampaign db cid = some camp)
    (hauth : getParticipantRole db cid u.userId = some Role.CREATOR ∨
             getParticipantRole db cid u.userId = some Role.ADMIN ∨
             u.isStaff = true)
    (hcap : participantCount db cid < camp.editorSlots)
    (hp : findParticipant db cid target = some p) :
    ∃ db1, approveParticipant cid target u now db =
        Except.ok (db1, { p with role := Role.MEMBER }) ∧
      findParticipant db1 cid target = some { p with role := Role.MEMBER } ∧
      ((∀ r ∈ db.responses, ¬ (r.campaignId = cid ∧ r.userId = target)) →
        db1.responses = db.responses) := by
  have hcond : ¬ (getParticipantRole db cid u.userId ≠ some Role.CREATOR ∧
      getParticipantRole db cid u.userId ≠ some Role.ADMIN ∧
      ¬ u.isStaff = true) := by
    rcases hauth with h | h | h
    · exact fun hcc => hcc.1 h
    · exact fun hcc => hcc.2.1 h
    · exact fun hcc => hcc.2.2 h
  have hfp0 : db.participants.find?
      (fun q => q.campaignId == cid && q.userId == target) = some p := by
    simpa [findParticipant] using hp
  have hkey : (p.campaignId == cid && p.userId == target) = true := by
    simpa using List.find?_some hfp0
  have hmain : approveParticipant cid target u now db = Except.ok
      ({ db with
          participants := db.participants.map (fun q =>
            if q.campaignId == cid && q.userId == target then
              { q with role := Role.MEMBER }
            else q),
          responses := db.responses.map (fun r =>
            if r.campaignId == cid && r.userId == target then
              { r with
                status := RespStatus.APPROVED,
                reviewedBy := some u.userId, reviewedAt := some now }
            else r) },
       { p with role := Role.MEMBER }) := by
    simp only [approveParticipant, hc, hp]
    rw [if_neg hcond, if_neg (not_le.mpr hcap)]
  have hfp1 : findParticipant
      { db with
          participants := db.participants.map (fun q =>
            if q.campaignId == cid && q.userId == target then
              { q with role := Role.MEMBER }
            else q),
          responses := db.responses.map (fun r =>
            if r.campaignId == cid && r.userId == target then
              { r with
                status := RespStatus.APPROVED,
                reviewedBy := some u.userId, reviewedAt := some now }
            else r) } cid target = some { p with role := Role.MEMBER } := by
    show (db.participants.map (fun q =>
        if q.campaignId == cid && q.userId == target then
          { q with role := Role.MEMBER }
        else q)).find? (fun q => q.campaignId == cid && q.userId == target) =
      some { p with role := Role.MEMBER }
    rw [find?_map_participant db.participants cid target _
      (fun q => by by_cases hq : (q.campaignId == cid && q.userId == target) = true <;>
        simp [hq]), hfp0, Option.map_some', hkey]
    simp
  refine ⟨_, hmain, hfp1, ?_⟩
  intro hr
  show db.responses.map (fun r =>
      if r.campaignId == cid && r.userId == target then
        { r with
          status := RespStatus.APPROVED,
          reviewedBy := some u.userId, reviewedAt := some now }
      else r) = db.responses
  have hfix : ∀ r ∈ db.responses,
      (if r.campaignId == cid && r.userId == target then
        ({ r with
          status := RespStatus.APPROVED,
          reviewedBy := some u.userId, reviewedAt := some now } : WaitlistResponse)
      else r) = id r := by
    intro r hrm
    have hnr := hr r hrm
    have hcf : (r.campaignId == cid && r.userId == target) = false := by
      rw [Bool.eq_false_iff]
      intro hb
      exact hnr (by simpa using hb)
    simp [hcf]
  rw [List.map_congr_left hfix, List.map_id]

/-- C10, witness: approving the ADMIN bob, who has no PENDING row and no
waitlist response, succeeds and demotes bob to MEMBER. -/
theorem c10_approve_ignores_prior_role_witness :
    ∃ db1, approveParticipant "c1" "bob" ⟨"cr", false⟩ 3 approveScenarioDB =
        Except.ok (db1, Participant.mk "c1" "bob" Role.MEMBER) ∧
      findParticipant db1 "c1" "bob" = some (Participant.mk "c1" "bob" Role.MEMBER) ∧
      db1.responses = [] := by
  obtain ⟨db1, h1, h2, h3⟩ :=
    c10_approve_ignores_prior_role approveScenarioDB "c1" "bob" ⟨"cr", false⟩ 3
      (mkCampaign "c1" Status.ACTIVE CampaignType.WAITLIST 5 0 100 "cr")
      (Participant.mk "c1" "bob" Role.ADMIN)
      (by decide) (Or.inl (by decide)) (by decide) (by decide)
  refine ⟨db1, h1, h2, ?_⟩
  rw [h3 (by simp [approveScenarioDB, emptyDB])]
  rfl

/-- The sweep count: the fold counts exactly the processed campaigns
whose storage update did not fail. -/
lemma autoCloseStep_foldl_snd (now : Nat) (failing : String → Bool) :
    ∀ (l : List Campaign) (acc : DB × Nat),
    (l.foldl (autoCloseStep now failing) acc).2 =
      acc.2 + l.countP (fun c => ! failing c.id) := by
  intro l
  induction l with
  | nil => intro acc; simp
  | cons c l ih =>
    intro acc
    rw [List.foldl_cons, List.countP_cons, ih]
    by_cases hf : failing c.id = true
    · simp [autoCloseStep, hf]
    · simp only [autoCloseStep, hf]
      simp [hf]
      omega

/-- The sweep store: the fold rewrites exactly the rows whose id matches
a processed, non-failing campaign, and leaves every other table of the
store unchanged. -/
lemma autoCloseStep_foldl_fst (now : Nat) (failing : String → Bool) :
    ∀ (l : List Campaign) (acc : DB × Nat),
    (l.foldl (autoCloseStep now failing) acc).1 =
      { acc.1 with campaigns := acc.1.campaigns.map (fun x =>
          if l.any (fun c => ! failing c.id && c.id == x.id) then
            endCampaign now x
          else x) } := by
  intro l
  induction l with
  | nil =>
    intro acc
    simp
  | cons c l ih =>
    intro acc
    rw [List.foldl_cons]
    by_cases hf : failing c.id = true
    · rw [show autoCloseStep now failing acc c = acc from by
        simp [autoCloseStep, hf]]
      rw [ih acc]
      have hfun : (fun (x : Campaign) =>
          if (c :: l).any (fun c => ! failing c.id && c.id == x.id) then
            endCampaign now x
          else x) = (fun (x : Campaign) =>
          if l.any (fun c => ! failing c.id && c.id == x.id) then
            endCampaign now x
          else x) := by
        funext x
        simp [List.any_cons, hf]
      rw [hfun]
    · have hstep : autoCloseStep now failing acc c =
          ({ acc.1 with campaigns := acc.1.campaigns.map (fun x =>
              if x.id == c.id then endCampaign now x else x) }, acc.2 + 1) := by
        simp [autoCloseStep, hf]
      rw [hstep, ih]
      have hfun : ((fun (x : Campaign) =>
          if l.any (fun c => ! failing c.id && c.id == x.id) then
            endCampaign now x
          else x) ∘ (fun (x : Campaign) =>
          if x.id == c.id then endCampaign now x else x)) = (fun (x : Campaign) =>
          if (c :: l).any (fun c => ! failing c.id && c.id == x.id) then
            endCampaign now x
          else x) := by
        funext x
        by_cases hx : x.id = c.id
        · have hcx : (c.id == x.id) = true := by simp [hx]
          have hxc : (x.id == c.id) = true := by simp [hx]
          by_cases hl : l.any (fun d => ! failing d.id && d.id == x.id) = true
          · simp [Function.comp, hxc, hcx, hl, endCampaign, List.any_cons, hf]
          · simp [Function.comp, hxc, hcx, hl, endCampaign, List.any_cons, hf]
        · have hcx : (c.id == x.id) = false := by simp [Ne.symm hx]
          have hxc : (x.id == c.id) = false := by simp [hx]
          simp [Function.comp, hxc, hcx, List.any_cons]
      rw [List.map_map, hfun]

/-- Store for the sweep scenario: expired a, expired-but-failing b, not
yet expired c, expired-but-DRAFT d. -/
def sweepScenarioDB : DB := { emptyDB with
  campaigns := [mkCampaign "a" Status.ACTIVE CampaignType.AUTO_JOIN 5 0 1 "cr",
                mkCampaign "b" Status.ACTIVE CampaignType.AUTO_JOIN 5 0 1 "cr",
                mkCampaign "c" Status.ACTIVE CampaignType.AUTO_JOIN 5 0 100 "cr",
                mkCampaign "d" Status.DRAFT CampaignType.AUTO_JOIN 5 0 1 "cr"] }

/-- C7.  The sweep selects exactly the ACTIVE campaigns whose end date
lies before now; each selected campaign whose storage update fails is
skipped (left ACTIVE, so the next sweep selects it again) while the
remaining selected campaigns are processed and set ENDED with the
DATE_REACHED closure data; unselected campaigns are untouched; the
returned count is the number of selected campaigns that closed
successfully. -/
theorem c7_auto_close_sweep (now : Nat) (failing : String → Bool) (db : DB)
    (hids : (db.campaigns.map (fun c => c.id)).Nodup) :
    (autoCloseCampaigns now failing db).2 =
      (db.campaigns.filter (fun c =>
        c.status == Status.ACTIVE && decide (c.endDate < now))).countP
        (fun c => ! failing c.id) ∧
    (autoCloseCampaigns now failing db).1.campaigns.length =
      db.campaigns.length ∧
    (∀ (i : Nat) (c : Campaign), db.campaigns[i]? = some c →
      ((¬ (c.status = Status.ACTIVE ∧ c.endDate < now)) →
        (autoCloseCampaigns now failing db).1.campaigns[i]? = some c) ∧
      (c.status = Status.ACTIVE → c.endDate < now → failing c.id = true →
        (autoCloseCampaigns now failing db).1.campaigns[i]? = some c) ∧
      (c.status = Status.ACTIVE → c.endDate < now → failing c.id = false →
        (autoCloseCampaigns now failing db).1.campaigns[i]? =
          some { c with status := Status.ENDED, archivedAt := some now })) := by
  have hinj : ∀ x ∈ db.campaigns, ∀ y ∈ db.campaigns, x.id = y.id → x = y :=
    fun x hx y hy hxy => List.inj_on_of_nodup_map hids hx hy hxy
  have hsnd := autoCloseStep_foldl_snd now failing
    (db.campaigns.filter (fun c =>
      c.status == Status.ACTIVE && decide (c.endDate < now))) (db, 0)
  have hfst := autoCloseStep_foldl_fst now failing
    (db.campaigns.filter (fun c =>
      c.status == Status.ACTIVE && decide (c.endDate < now))) (db, 0)
  refine ⟨by simpa [autoCloseCampaigns] using hsnd, ?_, ?_⟩
  · show (autoCloseCampaigns now failing db).1.campaigns.length = _
    rw [show (autoCloseCampaigns now failing db).1 = _ from hfst]
    simp
  · intro i c hc
    have hcm : c ∈ db.campaigns := List.getElem?_mem hc
    have hget : (autoCloseCampaigns now failing db).1.campaigns[i]? =
        some ((fun x =>
          if (db.campaigns.filter (fun c =>
              c.status == Status.ACTIVE && decide (c.endDate < now))).any
              (fun d => ! failing d.id && d.id == x.id) then
            endCampaign now x
          else x) c) := by
      rw [show (autoCloseCampaigns now failing db).1 = _ from hfst]
      show (db.campaigns.map _)[i]? = _
      rw [List.getElem?_map, hc, Option.map_some']
    refine ⟨?_, ?_, ?_⟩
    · intro hnot
      rw [hget]
      have hany : (db.campaigns.filter (fun c =>
          c.status == Status.ACTIVE && decide (c.endDate < now))).any
          (fun d => ! failing d.id && d.id == c.id) = false := by
        rw [Bool.eq_false_iff]
        intro hb
        obtain ⟨d, hd, hdp⟩ := List.any_eq_true.mp hb
        obtain ⟨hdm, hdP⟩ := List.mem_filter.mp hd
        obtain ⟨hdp1, hdp2⟩ : (! failing d.id) = true ∧ (d.id == c.id) = true := by
          simpa using hdp
        obtain ⟨hdP1, hdP2⟩ : d.status = Status.ACTIVE ∧ d.endDate < now := by
          simpa using hdP
        have hdc : d = c := hinj d hdm c hcm (by simpa using hdp2)
        exact hnot (hdc ▸ ⟨hdP1, hdP2⟩)
      simp [hany]
    · intro hA hE hF
      rw [hget]
      have hany : (db.campaigns.filter (fun c =>
          c.status == Status.ACTIVE && decide (c.endDate < now))).any
          (fun d => ! failing d.id && d.id == c.id) = false := by
        rw [Bool.eq_false_iff]
        intro hb
        obtain ⟨d, hd, hdp⟩ := List.any_eq_true.mp hb
        obtain ⟨hdm, -⟩ := List.mem_filter.mp hd
        obtain ⟨hdp1, hdp2⟩ : (! failing d.id) = true ∧ (d.id == c.id) = true := by
          simpa using hdp
        have hdc : d = c := hinj d hdm c hcm (by simpa using hdp2)
        rw [hdc] at hdp1
        simp [hF] at hdp1
      simp [hany]
    · intro hA hE hF
      rw [hget]
      have hany : (db.campaigns.filter (fun c =>
          c.status == Status.ACTIVE && decide (c.endDate < now))).any
          (fun d => ! failing d.id && d.id == c.id) = true := by
        rw [List.any_eq_true]
        refine ⟨c, List.mem_filter.mpr ⟨hcm, by simp [hA, hE]⟩, by simp [hF]⟩
      simp [hany, endCampaign]

/-- C7, witness: of the three expired-selection candidates, the failing
campaign b is left ACTIVE and only a closes, so the count is 1, while
the unexpired c and the DRAFT d are untouched. -/
theorem c7_auto_close_sweep_witness :
    (autoCloseCampaigns 10 (fun s => s == "b") sweepScenarioDB).2 = 1 ∧
    ((autoCloseCampaigns 10 (fun s => s == "b") sweepScenarioDB).1.campaigns[1]?).map
      (fun c => c.status) = some Status.ACTIVE := by
  obtain ⟨hcount, hlen, hpt⟩ :=
    c7_auto_close_sweep 10 (fun s => s == "b") sweepScenarioDB (by decide)
  constructor
  · rw [hcount]; decide
  · have hb := (hpt 1 (mkCampaign "b" Status.ACTIVE CampaignType.AUTO_JOIN 5 0 1 "cr")
      (by decide)).2.1 rfl (by decide) (by decide)
    rw [hb]
    rfl

/-- Position of a status along the DRAFT → ACTIVE → ENDED lifecycle. -/
def statusRank : Status → Nat
  | Status.DRAFT => 0
  | Status.ACTIVE => 1
  | Status.ENDED => 2

/-- Store for the closing scenario: one ACTIVE campaign with its
creator. -/
def closeScenarioDB : DB := { emptyDB with
  campaigns := [mkCampaign "c1" Status.ACTIVE CampaignType.AUTO_JOIN 5 0 100 "cr"],
  participants := [Participant.mk "c1" "cr" Role.CREATOR] }

/-- C4, amended.  The closing operations never move a status backwards:
a successful closeCampaign and any autoCloseCampaigns sweep leave every
campaign row, position by position, with a status of rank at least its
old rank (DRAFT < ACTIVE < ENDED).  (updateCampaign is excluded: it
writes a status field from the patch verbatim, so it can move a
campaign backwards — see the counterexample.) -/
theorem c4_status_forward_only :
    (∀ (id : String) (u : AuthUser) (now : Nat) (db db1 : DB) (c1 : Campaign),
      closeCampaign id u now db = Except.ok (db1, c1) →
      db1.campaigns.length = db.campaigns.length ∧
      ∀ (i : Nat) (c c' : Campaign), db.campaigns[i]? = some c →
        db1.campaigns[i]? = some c' →
        statusRank c.status ≤ statusRank c'.status) ∧
    (∀ (now : Nat) (failing : String → Bool) (db : DB),
      (autoCloseCampaigns now failing db).1.campaigns.length =
        db.campaigns.length ∧
      ∀ (i : Nat) (c c' : Campaign), db.campaigns[i]? = some c →
        (autoCloseCampaigns now failing db).1.campaigns[i]? = some c' →
        statusRank c.status ≤ statusRank c'.status) := by
  constructor
  · intro id u now db db1 c1 h
    cases hf : findCampaign db id with
    | none =>
      simp only [closeCampaign, hf] at h
      exact absurd h (by simp)
    | some camp =>
      simp only [closeCampaign, hf] at h
      split_ifs at h with h1 h2
      rw [Except.ok.injEq, Prod.mk.injEq] at h
      obtain ⟨hdb, -⟩ := h
      constructor
      · rw [← hdb]
        simp
      · intro i c c' hc hc'
        rw [← hdb] at hc'
        have hmap : (db.campaigns.map (fun c =>
            if c.id == id then
              { c with status := Status.ENDED, archivedAt := some now }
            else c))[i]? = some c' := hc'
        rw [List.getElem?_map, hc, Option.map_some'] at hmap
        have hfc : (if c.id == id then
            { c with status := Status.ENDED, archivedAt := some now }
          else c) = c' := by
          simpa using hmap
        rw [← hfc]
        by_cases hcc : (c.id == id) = true
        · simp only [hcc, if_true]
          cases c.status <;> simp [statusRank]
        · simp [hcc]
  · intro now failing db
    have hfst := autoCloseStep_foldl_fst now failing
      (db.campaigns.filter (fun c =>
        c.status == Status.ACTIVE && decide (c.endDate < now))) (db, 0)
    constructor
    · rw [show (autoCloseCampaigns now failing db).1 = _ from hfst]
      simp
    · intro i c c' hc hc'
      rw [show (autoCloseCampaigns now failing db).1 = _ from hfst] at hc'
      have hmap : (db.campaigns.map (fun x =>
          if (db.campaigns.filter (fun c =>
              c.status == Status.ACTIVE && decide (c.endDate < now))).any
              (fun d => ! failing d.id && d.id == x.id) then
            endCampaign now x
          else x))[i]? = some c' := hc'
      rw [List.getElem?_map, hc, Option.map_some'] at hmap
      have hfc : (if (db.campaigns.filter (fun c =>
            c.status == Status.ACTIVE && decide (c.endDate < now))).any
            (fun d => ! failing d.id && d.id == c.id) then
          endCampaign now c
        else c) = c' := by
        simpa using hmap
      rw [← hfc]
      by_cases hany : ((db.campaigns.filter (fun c =>
          c.status == Status.ACTIVE && decide (c.endDate < now))).any
          (fun d => ! failing d.id && d.id == c.id)) = true
      · simp only [hany, if_true]
        cases c.status <;> simp [statusRank, endCampaign]
      · simp [hany]

/-- C4, witness: closing the ACTIVE campaign of the closing scenario
moves rank 1 (ACTIVE) to rank 2 (ENDED), a forward step. -/
theorem c4_status_forward_only_witness :
    statusRank Status.ACTIVE ≤ statusRank Status.ENDED := by
  have hval : closeCampaign "c1" ⟨"cr", false⟩ 3 closeScenarioDB = Except.ok
      ({ closeScenarioDB with campaigns :=
          [{ mkCampaign "c1" Status.ACTIVE CampaignType.AUTO_JOIN 5 0 100 "cr" with
              status := Status.ENDED, archivedAt := some 3 }] },
       { mkCampaign "c1" Status.ACTIVE CampaignType.AUTO_JOIN 5 0 100 "cr" with
          status := Status.ENDED, archivedAt := some 3 }) := by decide
  obtain ⟨-, hmono⟩ :=
    c4_status_forward_only.1 "c1" ⟨"cr", false⟩ 3 closeScenarioDB _ _ hval
  exact hmono 0 (mkCampaign "c1" Status.ACTIVE CampaignType.AUTO_JOIN 5 0 100 "cr")
    { mkCampaign "c1" Status.ACTIVE CampaignType.AUTO_JOIN 5 0 100 "cr" with
        status := Status.ENDED, archivedAt := some 3 } (by decide) (by decide)

/-- The store produced by setWaitlistQuestions: the question rows of the
campaign are deleted and the freshly assigned rows appended. -/
def replaceQuestions (cid : String) (qs : List (String × Option Nat))
    (db : DB) : DB :=
  { db with questions :=
      db.questions.filter (fun q => ! (q.campaignId == cid)) ++
        assignQuestions cid 0 qs }

/-! ## Question ordering -/

instance : DecidableRel (fun (a b : WaitlistQuestion) => a.order ≤ b.order) :=
  fun a b => Nat.decLe a.order b.order

instance : IsTotal WaitlistQuestion (fun a b => a.order ≤ b.order) :=
  ⟨fun a b => Nat.le_total a.order b.order⟩

instance : IsTrans WaitlistQuestion (fun a b => a.order ≤ b.order) :=
  ⟨fun _ _ _ hab hbc => Nat.le_trans hab hbc⟩

/-- Every row created by assignQuestions carries the campaign id. -/
lemma assignQuestions_campaignId (cid : String) :
    ∀ (qs : List (String × Option Nat)) (i : Nat),
    ∀ q ∈ assignQuestions cid i qs, q.campaignId = cid := by
  intro qs
  induction qs with
  | nil => intro i q hq; simp [assignQuestions] at hq
  | cons x qs ih =>
    intro i q hq
    rcases List.mem_cons.mp hq with h | h
    · rw [h]
    · exact ih (i + 1) q h

/-- With no explicit orders, assignQuestions numbers the rows i+1, i+2,
… in input order, so the created list is already sorted and bounded
below. -/
lemma assignQuestions_default_sorted (cid : String) :
    ∀ (qs : List (String × Option Nat)) (i : Nat),
    (∀ x ∈ qs, x.2 = none) →
    List.Sorted (fun (a b : WaitlistQuestion) => a.order ≤ b.order)
      (assignQuestions cid i qs) ∧
    (∀ q ∈ assignQuestions cid i qs, i + 1 ≤ q.order) := by
  intro qs
  induction qs with
  | nil => intro i _; simp [assignQuestions]
  | cons x qs ih =>
    intro i h
    have hx : x.2 = none := h x (List.mem_cons_self x qs)
    obtain ⟨ihs, ihb⟩ := ih (i + 1) (fun y hy => h y (List.mem_cons_of_mem x hy))
    constructor
    · rw [assignQuestions, List.sorted_cons]
      refine ⟨?_, ihs⟩
      intro b hb
      have := ihb b hb
      simp [hx]
      omega
    · intro q hq
      rcases List.mem_cons.mp hq with h1 | h1
      · rw [h1]; simp [hx]
      · have := ihb q h1
        omega

/-- Store for the questions scenario: campaign c1 has a leftover
question row from a prior call and campaign c2 has an unrelated row. -/
def questionScenarioDB : DB := { emptyDB with
  participants := [Participant.mk "c1" "cr" Role.CREATOR],
  questions := [WaitlistQuestion.mk "c1" "old" 1,
                WaitlistQuestion.mk "c2" "other" 7] }

/-- C8.  setWaitlistQuestions by the creator (or staff) fully replaces
the question rows of the campaign: the listing afterwards is exactly a
permutation of the freshly created rows (so no row of a prior call
survives), sorted by the order key — the explicit order field when
given, else the 1-based input position — and when no explicit order is
given at all, the listing is exactly the input in input order. -/
theorem c8_questions_roundtrip (cid : String) (qs : List (String × Option Nat))
    (u : AuthUser) (db : DB)
    (hauth : getParticipantRole db cid u.userId = some Role.CREATOR ∨
      u.isStaff = true) :
    ∃ db1, setWaitlistQuestions cid qs u db =
        Except.ok (db1, assignQuestions cid 0 qs) ∧
      getWaitlistQuestions cid db1 =
        (assignQuestions cid 0 qs).insertionSort (fun a b => a.order ≤ b.order) ∧
      (getWaitlistQuestions cid db1).Perm (assignQuestions cid 0 qs) ∧
      List.Sorted (fun (a b : WaitlistQuestion) => a.order ≤ b.order)
        (getWaitlistQuestions cid db1) ∧
      (∀ q ∈ getWaitlistQuestions cid db1, q ∈ assignQuestions cid 0 qs) ∧
      ((∀ x ∈ qs, x.2 = none) →
        getWaitlistQuestions cid db1 = assignQuestions cid 0 qs) := by
  have hcond : ¬ (getParticipantRole db cid u.userId ≠ some Role.CREATOR ∧
      ¬ u.isStaff = true) := by
    rcases hauth with h | h
    · exact fun hc => hc.1 h
    · exact fun hc => hc.2 h
  have hmain : setWaitlistQuestions cid qs u db = Except.ok
      (replaceQuestions cid qs db, assignQuestions cid 0 qs) := by
    simp only [setWaitlistQuestions, replaceQuestions]
    rw [if_neg hcond]
  have hfilter : (replaceQuestions cid qs db).questions.filter
      (fun q => q.campaignId == cid) = assignQuestions cid 0 qs := by
    show (db.questions.filter (fun q => ! (q.campaignId == cid)) ++
        assignQuestions cid 0 qs).filter (fun q => q.campaignId == cid) = _
    rw [List.filter_append, List.filter_filter]
    have h1 : db.questions.filter
        (fun a => (a.campaignId == cid) && ! (a.campaignId == cid)) = [] := by
      have : (fun (a : WaitlistQuestion) =>
          (a.campaignId == cid) && ! (a.campaignId == cid)) =
          (fun _ => false) := by
        funext a
        cases a.campaignId == cid <;> rfl
      rw [this]
      simp
    have h2 : (assignQuestions cid 0 qs).filter
        (fun q => q.campaignId == cid) = assignQuestions cid 0 qs := by
      rw [List.filter_eq_self]
      intro q hq
      simp [assignQuestions_campaignId cid qs 0 q hq]
    rw [h1, h2, List.nil_append]
  have hget : getWaitlistQuestions cid (replaceQuestions cid qs db) =
      (assignQuestions cid 0 qs).insertionSort (fun a b => a.order ≤ b.order) := by
    show ((replaceQuestions cid qs db).questions.filter
      (fun q => q.campaignId == cid)).insertionSort (fun a b => a.order ≤ b.order) = _
    rw [hfilter]
  refine ⟨_, hmain, hget, ?_, ?_, ?_, ?_⟩
  · rw [hget]
    exact List.perm_insertionSort _ _
  · rw [hget]
    exact List.sorted_insertionSort _ _
  · intro q hq
    rw [hget] at hq
    exact (List.perm_insertionSort _ _).mem_iff.mp hq
  · intro hnone
    rw [hget]
    exact List.Sorted.insertionSort_eq
      (assignQuestions_default_sorted cid qs 0 hnone).1

/-- C8, witness: after replacing the questions of c1, listing returns
exactly the two new rows in input order with orders 1 and 2; the
leftover row of a prior call is gone. -/
theorem c8_questions_roundtrip_witness :
    ∃ db1, setWaitlistQuestions "c1" [("a", none), ("b", none)] ⟨"cr", false⟩
        questionScenarioDB = Except.ok
          (db1, [WaitlistQuestion.mk "c1" "a" 1, WaitlistQuestion.mk "c1" "b" 2]) ∧
      getWaitlistQuestions "c1" db1 =
        [WaitlistQuestion.mk "c1" "a" 1, WaitlistQuestion.mk "c1" "b" 2] := by
  obtain ⟨db1, h1, -, -, -, -, h6⟩ :=
    c8_questions_roundtrip "c1" [("a", none), ("b", none)] ⟨"cr", false⟩
      questionScenarioDB (Or.inl (by decide))
  refine ⟨db1, h1, ?_⟩
  have := h6 (by decide)
  rw [this]
  decide

/-! ## Join capacity -/

/-- A fresh, unbanned join on a full ACTIVE AUTO_JOIN campaign fails
Forbidden with the full message. -/
lemma joinCampaign_full (cid u : String) (camp : Campaign) (db : DB)
    (hfind : findCampaign db cid = some camp)
    (hst : camp.status = Status.ACTIVE)
    (hty : camp.campaignType = CampaignType.AUTO_JOIN)
    (hpart : findParticipant db cid u = none)
    (hban : findBan db cid u = none)
    (hge : camp.editorSlots ≤ participantCount db cid) :
    joinCampaign cid ⟨u, false⟩ none db =
      Except.error (Err.forbidden "Campaign is full") := by
  simp only [joinCampaign, hfind]
  rw [if_neg (by simp [hst]), if_neg (by simp [hpart]), if_neg (by simp [hban]),
    if_pos ⟨hty, hge⟩]

/-- A fresh, unbanned join on an ACTIVE AUTO_JOIN campaign with free
capacity inserts a MEMBER row and returns MEMBER. -/
lemma joinCampaign_ok (cid u : String) (camp : Campaign) (db : DB)
    (hfind : findCampaign db cid = some camp)
    (hst : camp.status = Status.ACTIVE)
    (hty : camp.campaignType = CampaignType.AUTO_JOIN)
    (hpart : findParticipant db cid u = none)
    (hban : findBan db cid u = none)
    (hlt : participantCount db cid < camp.editorSlots) :
    joinCampaign cid ⟨u, false⟩ none db = Except.ok
      ({ db with participants :=
          db.participants ++ [Participant.mk cid u Role.MEMBER] },
       Role.MEMBER) := by
  simp only [joinCampaign, hfind]
  rw [if_neg (by simp [hst]), if_neg (by simp [hpart]), if_neg (by simp [hban]),
    if_neg (by exact fun hc => absurd hc.2 (not_le.mpr hlt))]
  simp [hty]

/-- The outcomes of a sequence of fresh, distinct, unbanned joins on an
ACTIVE AUTO_JOIN campaign: starting from k existing participant rows,
the i-th request (0-based) succeeds exactly while k + i stays below
editorSlots, and every later request fails Forbidden (full). -/
lemma joinMany_spec (cid : String) (camp : Campaign) (N : Nat)
    (hty : camp.campaignType = CampaignType.AUTO_JOIN)
    (hst : camp.status = Status.ACTIVE)
    (hslots : camp.editorSlots = N) :
    ∀ (us : List String) (db : DB) (k : Nat),
    findCampaign db cid = some camp →
    participantCount db cid = k →
    us.Nodup →
    (∀ u ∈ us, findParticipant db cid u = none) →
    (∀ u ∈ us, findBan db cid u = none) →
    (joinMany cid us db).2 = (List.range us.length).map (fun i =>
      if k + i < N then Except.ok Role.MEMBER
      else Except.error (Err.forbidden "Campaign is full")) := by
  intro us
  induction us with
  | nil => intro db k _ _ _ _ _; simp [joinMany]
  | cons u us ih =>
    intro db k hfind hcount hnodup hfresh hban
    have hu_part : findParticipant db cid u = none :=
      hfresh u (List.mem_cons_self u us)
    have hu_ban : findBan db cid u = none := hban u (List.mem_cons_self u us)
    have hu_notmem : u ∉ us := (List.nodup_cons.mp hnodup).1
    by_cases hcap : k < N
    · have hok := joinCampaign_ok cid u camp db hfind hst hty hu_part hu_ban
        (by rw [hcount, hslots]; exact hcap)
      have hfind1 : findCampaign
          { db with participants :=
              db.participants ++ [Participant.mk cid u Role.MEMBER] } cid =
          some camp := hfind
      have hcount1 : participantCount
          { db with participants :=
              db.participants ++ [Participant.mk cid u Role.MEMBER] } cid =
          k + 1 := by
        show (List.filter _ (db.participants ++ [Participant.mk cid u Role.MEMBER])).length = k + 1
        rw [List.filter_append]
        simp only [List.length_append]
        rw [show (List.filter (fun p => p.campaignId == cid)
          [Participant.mk cid u Role.MEMBER]) = [Participant.mk cid u Role.MEMBER] from by simp]
        rw [show (List.filter (fun p => p.campaignId == cid) db.participants).length = k
          from hcount]
        rfl
      have hfresh1 : ∀ v ∈ us, findParticipant
          { db with participants :=
              db.participants ++ [Participant.mk cid u Role.MEMBER] } cid v =
          none := by
        intro v hv
        show List.find? _ (db.participants ++ [Participant.mk cid u Role.MEMBER]) = none
        rw [List.find?_append]
        rw [show List.find? (fun p => p.campaignId == cid && p.userId == v)
          db.participants = none from hfresh v (List.mem_cons_of_mem u hv)]
        have hvu : u ≠ v := fun h => hu_notmem (h ▸ hv)
        simp [Option.or, hvu]
      have hban1 : ∀ v ∈ us, findBan
          { db with participants :=
              db.participants ++ [Participant.mk cid u Role.MEMBER] } cid v =
          none := fun v hv => hban v (List.mem_cons_of_mem u hv)
      simp only [joinMany, hok]
      rw [ih _ (k + 1) hfind1 hcount1 (List.Nodup.of_cons hnodup) hfresh1 hban1]
      simp only [List.length_cons]
      rw [List.range_succ_eq_map, List.map_cons, List.map_map]
      congr 1
      · rw [if_pos (by omega)]
      · have hfun : ((fun i =>
            if k + i < N then Except.ok Role.MEMBER
            else Except.error (Err.forbidden "Campaign is full")) ∘ Nat.succ) =
            (fun i =>
            if k + 1 + i < N then Except.ok Role.MEMBER
            else Except.error (Err.forbidden "Campaign is full")) := by
          funext i
          exact if_congr (by omega) rfl rfl
        rw [hfun]
    · have herr := joinCampaign_full cid u camp db hfind hst hty hu_part hu_ban
        (by rw [hcount, hslots]; omega)
      simp only [joinMany, herr]
      rw [ih db k hfind hcount (List.Nodup.of_cons hnodup)
        (fun v hv => hfresh v (List.mem_cons_of_mem u hv))
        (fun v hv => hban v (List.mem_cons_of_mem u hv))]
      simp only [List.length_cons]
      rw [List.range_succ_eq_map, List.map_cons, List.map_map]
      congr 1
      · rw [if_neg (by omega)]
      · have hfun : ((fun i =>
            if k + i < N then Except.ok Role.MEMBER
            else Except.error (Err.forbidden "Campaign is full")) ∘ Nat.succ) =
            (fun i =>
            if k + i < N then Except.ok Role.MEMBER
            else Except.error (Err.forbidden "Campaign is full")) := by
          funext i
          rw [Function.comp]
          exact if_congr (by omega) rfl rfl
        rw [hfun]

/-- Counting the indices below a bound inside an initial segment. -/
lemma countP_range_lt (n m : Nat) :
    (List.range n).countP (fun i => decide (i < m)) = min n m := by
  induction n with
  | zero => simp
  | succ k ih =>
    rw [List.range_succ, List.countP_append, ih]
    by_cases h : k < m
    · simp [h]
      omega
    · simp [h]
      omega

/-- C1, amended.  On an AUTO_JOIN campaign created with editorSlots = N
whose creator already occupies one participant row, successive joins by
distinct, unbanned, non-participant users succeed for exactly the first
max (N − 1) 0 requests — the 0-based i-th join succeeds iff 1 + i < N,
because the creator row counts against capacity — and every later join
fails Forbidden with the full message. -/
theorem c1_auto_join_capacity (cid : String) (camp : Campaign) (N : Nat)
    (us : List String) (db : DB)
    (hty : camp.campaignType = CampaignType.AUTO_JOIN)
    (hst : camp.status = Status.ACTIVE)
    (hslots : camp.editorSlots = N)
    (hfind : findCampaign db cid = some camp)
    (hcount : participantCount db cid = 1)
    (hnodup : us.Nodup)
    (hfresh : ∀ u ∈ us, findParticipant db cid u = none)
    (hban : ∀ u ∈ us, findBan db cid u = none) :
    (joinMany cid us db).2 = (List.range us.length).map (fun i =>
      if 1 + i < N then Except.ok Role.MEMBER
      else Except.error (Err.forbidden "Campaign is full")) ∧
    ((joinMany cid us db).2.countP (fun r => r.isOk)) = min us.length (N - 1) := by
  have hmain := joinMany_spec cid camp N hty hst hslots us db 1
    hfind hcount hnodup hfresh hban
  refine ⟨hmain, ?_⟩
  rw [hmain, List.countP_map]
  have hfun : ((fun (r : Except Err Role) => r.isOk) ∘ (fun i =>
      if 1 + i < N then Except.ok Role.MEMBER
      else Except.error (Err.forbidden "Campaign is full"))) =
      (fun (i : Nat) => decide (i < N - 1)) := by
    funext i
    by_cases h : 1 + i < N
    · rw [Function.comp]
      rw [if_pos h]
      have h2 : i < N - 1 := by omega
      simp [Except.isOk, Except.toBool, h2]
    · rw [Function.comp]
      rw [if_neg h]
      have h2 : ¬ i < N - 1 := by omega
      simp [Except.isOk, Except.toBool, h2]
  rw [hfun, countP_range_lt]

/-- C1, witness for the amended claim: with editorSlots = 3 and the
creator occupying one row, the first two joins succeed and the third
fails full, so the success count is min 3 (3 − 1) = 2. -/
theorem c1_auto_join_capacity_witness :
    (joinMany "c1" ["u1", "u2", "u3"]
      { capacityScenarioDB with campaigns :=
          [mkCampaign "c1" Status.ACTIVE CampaignType.AUTO_JOIN 3 0 100 "cr"] }).2.countP
      (fun r => r.isOk) = 2 := by
  have h := (c1_auto_join_capacity "c1"
    (mkCampaign "c1" Status.ACTIVE CampaignType.AUTO_JOIN 3 0 100 "cr") 3
    ["u1", "u2", "u3"]
    { capacityScenarioDB with campaigns :=
        [mkCampaign "c1" Status.ACTIVE CampaignType.AUTO_JOIN 3 0 100 "cr"] }
    rfl rfl rfl (by decide) (by decide) (by decide) (by decide) (by decide)).2
  rw [h]
  decide

end Campaigns
